import Mathlib

/-!
# Space Habitat Designer: placement validity, score, advice and pointer events

A shallow embedding of `src/main.js`.

* Numbers are JavaScript numbers: `Double` is IEEE 754 binary64 with round to nearest, ties to
  even, gradual underflow, overflow to the infinities, and NaN; every arithmetic operation of the
  source is the rounded operation.  `Phaser.Math.Distance.Between` is `distanceBetween`.
* The scene's module objects are records carrying an object identity `id`; the global variables
  `modules`, `draggedModule`, `crewCapacity` and the two text panels form the `Scene` record, and
  every handler is a function on scenes.  An assignment to a field of a module rewrites the record
  with that identity in `modules` (`updateObject`).
* `this.input.hitTestPointer(pointer)` belongs to Phaser 3 and returns an array of the game
  objects under the pointer.  The handlers are embedded on the values `onPointerDown` can hold in
  `module` (`HitResult`); the event dispatch `handle` passes the array.  An array is truthy and has
  no `isPalette` and no `moduleData`: `onPointerDown` stores it in `draggedModule`, and
  `onPointerMove` then throws.  A handler that throws leaves the assignments made so far, and
  later events are still delivered (`step`).
* The advice is kept as the string the source concatenates; `containsText`, `endsWithText` and
  `warningLines` read it back.
-/

set_option maxRecDepth 100000

/-! ## JavaScript numbers -/

/-- Number of binary digits of `n`, by halving (`fuel` bounds the number of steps). -/
def bitLengthLoop : Nat → Nat → Nat
  | 0, _ => 0
  | fuel + 1, n => if n = 0 then 0 else bitLengthLoop fuel (n / 2) + 1

/-- Number of binary digits of `n`; 0 for 0. -/
def bitLength (n : Nat) : Nat :=
  bitLengthLoop n n

/-- Halves an even mantissa and raises the exponent until the mantissa is odd. -/
def stripZerosLoop : Nat → Nat → Int → Nat × Int
  | 0, m, e => (m, e)
  | fuel + 1, m, e =>
    if m ≠ 0 ∧ m % 2 = 0 then stripZerosLoop fuel (m / 2) (e + 1) else (m, e)

/-- Integer square root by binary digits: the largest `r` below `2 ^ i` above the given `r` with
`r * r ≤ n`. -/
def isqrtLoop (n : Nat) : Nat → Nat → Nat
  | 0, r => r
  | i + 1, r => isqrtLoop n i (if (r + 2 ^ i) * (r + 2 ^ i) ≤ n then r + 2 ^ i else r)

/-- Floor of the square root of `n`. -/
def isqrt (n : Nat) : Nat :=
  isqrtLoop n (bitLength n / 2 + 1) 0

/-- A JavaScript number (IEEE 754 binary64): the finite value `m * 2 ^ e`, an infinity, or NaN.
The two zeros are not told apart.  Every operation returns finite values in the form with `m`
odd, or `m = 0` and `e = 0`. -/
inductive Double where
  | finite (m : Int) (e : Int)
  | posInf
  | negInf
  | nan
  deriving DecidableEq, Repr

namespace Double

/-- The finite value `m * 2 ^ e` with sign, in the form with odd mantissa. -/
def canon (neg : Bool) (m : Nat) (e : Int) : Double :=
  if m = 0 then
    finite 0 0
  else
    let r := stripZerosLoop m m e
    finite (if neg then -(r.1 : Int) else (r.1 : Int)) r.2

/-- The infinity of the given sign. -/
def inf (neg : Bool) : Double :=
  if neg then negInf else posInf

/-- Rounding to binary64, to nearest, ties to even.  The exact magnitude is `m * 2 ^ e`, plus a
positive amount below `2 ^ e` when `sticky` is set (callers set it only with `m` of 56 digits or
more).  The last kept digit has exponent `q`: 52 below the leading digit, and not below -1074;
from `2 ^ 1024` on the result is an infinity. -/
def round (neg : Bool) (m : Nat) (e : Int) (sticky : Bool) : Double :=
  if m = 0 then
    finite 0 0
  else
    let p := e + (bitLength m : Int) - 1
    let q := max (p - 52) (-1074)
    if q ≤ e then
      if 1024 ≤ p then inf neg else canon neg m e
    else
      let shift := (q - e).toNat
      let kept := m / 2 ^ shift
      let rest := m % 2 ^ shift
      let half := 2 ^ (shift - 1)
      let up := decide (half < rest) || (decide (rest = half) && (sticky || decide (kept % 2 = 1)))
      let kept := if up then kept + 1 else kept
      if 1024 < q + (bitLength kept : Int) then inf neg else canon neg kept q

/-- The number an integer literal denotes. -/
def ofInt (n : Int) : Double :=
  round (decide (n < 0)) n.natAbs 0 false

/-- The number a natural literal denotes. -/
def ofNat (n : Nat) : Double :=
  ofInt n

instance (n : Nat) : OfNat Double n :=
  ⟨ofNat n⟩

/-- Unary minus. -/
def neg : Double → Double
  | finite m e => finite (-m) e
  | posInf => negInf
  | negInf => posInf
  | nan => nan

/-- The operator `+`. -/
def add : Double → Double → Double
  | finite m₁ e₁, finite m₂ e₂ =>
    let e := min e₁ e₂
    let s := m₁ * 2 ^ (e₁ - e).toNat + m₂ * 2 ^ (e₂ - e).toNat
    round (decide (s < 0)) s.natAbs e false
  | nan, _ => nan
  | _, nan => nan
  | posInf, negInf => nan
  | negInf, posInf => nan
  | posInf, _ => posInf
  | negInf, _ => negInf
  | _, posInf => posInf
  | _, negInf => negInf

/-- The operator `-`. -/
def sub (a b : Double) : Double :=
  add a (neg b)

/-- The operator `*`. -/
def mul : Double → Double → Double
  | finite m₁ e₁, finite m₂ e₂ =>
    round (decide (m₁ * m₂ < 0)) (m₁ * m₂).natAbs (e₁ + e₂) false
  | nan, _ => nan
  | _, nan => nan
  | finite m _, posInf => if m = 0 then nan else inf (decide (m < 0))
  | finite m _, negInf => if m = 0 then nan else inf (decide (0 < m))
  | posInf, finite m _ => if m = 0 then nan else inf (decide (m < 0))
  | negInf, finite m _ => if m = 0 then nan else inf (decide (0 < m))
  | posInf, posInf => posInf
  | negInf, negInf => posInf
  | posInf, negInf => negInf
  | negInf, posInf => negInf

/-- The operator `/`.  The quotient of the mantissas is taken to 56 digits or more, with the
remainder as sticky digit. -/
def div : Double → Double → Double
  | finite m₁ e₁, finite m₂ e₂ =>
    if m₂ = 0 then
      if m₁ = 0 then nan else inf (decide (m₁ < 0))
    else
      let k := 56 + bitLength m₂.natAbs
      let n := m₁.natAbs * 2 ^ k
      round (decide (m₁ < 0) != decide (m₂ < 0)) (n / m₂.natAbs) (e₁ - e₂ - k)
        (decide (n % m₂.natAbs ≠ 0))
  | nan, _ => nan
  | _, nan => nan
  | finite _ _, _ => finite 0 0
  | posInf, finite m _ => inf (decide (m < 0))
  | negInf, finite m _ => inf (decide (0 ≤ m))
  | _, _ => nan

/-- The function `Math.sqrt`, correctly rounded.  The mantissa is scaled by an even power of two
to 113 digits or more and its integer square root taken, inexactness as sticky digit. -/
def sqrt : Double → Double
  | finite m e =>
    if m < 0 then
      nan
    else
      let s : Nat := if (e - 112) % 2 = 0 then 112 else 113
      let n := m.natAbs * 2 ^ s
      let r := isqrt n
      round false r ((e - s) / 2) (decide (r * r ≠ n))
  | posInf => posInf
  | negInf => nan
  | nan => nan

/-- The operator `<`. -/
def lt : Double → Double → Bool
  | finite m₁ e₁, finite m₂ e₂ =>
    decide (m₁ * 2 ^ (e₁ - min e₁ e₂).toNat < m₂ * 2 ^ (e₂ - min e₁ e₂).toNat)
  | nan, _ => false
  | _, nan => false
  | _, negInf => false
  | posInf, _ => false
  | negInf, _ => true
  | _, posInf => true

/-- The operator `>`. -/
def gt (a b : Double) : Bool :=
  lt b a

instance : Add Double := ⟨add⟩
instance : Sub Double := ⟨sub⟩
instance : Mul Double := ⟨mul⟩
instance : Div Double := ⟨div⟩

/-- The rational value of a finite number; 0 for the infinities and NaN. -/
def toRat : Double → ℚ
  | finite m e => (m : ℚ) * (2 : ℚ) ^ e
  | _ => 0

end Double

namespace Habitat

/-! ## Data model -/

/-- Keys of `MODULE_TYPES`, in declaration order. -/
inductive ModuleKey where
  | SLEEP_POD
  | KITCHEN
  | EXERCISE
  | STORAGE
  | HYGIENE
  | COMMAND
  deriving DecidableEq, Repr

/-- One entry of `MODULE_TYPES`. -/
structure ModuleData where
  name : String
  color : Nat
  crewSupport : Nat
  size : Nat
  deriving DecidableEq, Repr

/-- The table `MODULE_TYPES`. -/
def MODULE_TYPES : ModuleKey → ModuleData
  | .SLEEP_POD => { name := "Sleep Pod", color := 0x00ff00, crewSupport := 2, size := 60 }
  | .KITCHEN => { name := "Kitchen", color := 0xffff00, crewSupport := 1, size := 50 }
  | .EXERCISE => { name := "Exercise Area", color := 0x0080ff, crewSupport := 1, size := 55 }
  | .STORAGE => { name := "Storage", color := 0x8000ff, crewSupport := 0, size := 45 }
  | .HYGIENE => { name := "Hygiene", color := 0xff0000, crewSupport := 1, size := 40 }
  | .COMMAND => { name := "Command Center", color := 0xff8000, crewSupport := 1, size := 50 }

/-- `Object.entries(MODULE_TYPES)` as a list of keys, in insertion order. -/
def moduleKeys : List ModuleKey :=
  [.SLEEP_POD, .KITCHEN, .EXERCISE, .STORAGE, .HYGIENE, .COMMAND]

/-- A rectangle game object with the fields the program attaches to it.  `id` is the identity of
the object (what `===` compares); `isDragging` is `false` where the source leaves it undefined. -/
structure Module where
  id : Nat
  x : Double
  y : Double
  moduleType : ModuleKey
  moduleData : ModuleData
  isPalette : Bool
  isDragging : Bool
  strokeWidth : Nat
  strokeColor : Nat
  deriving DecidableEq, Repr

/-- The array `hitTestPointer` returns, with the properties the handlers assign to it: `objects`
are the identities of the game objects under the pointer, `x` and `y` are undefined until
`onPointerMove` assigns them. -/
structure HitArray where
  objects : List Nat
  x : Option Double
  y : Option Double
  isDragging : Bool
  deriving DecidableEq, Repr

/-- The object `draggedModule` refers to: a module of the list, by identity, or a hit array. -/
inductive DragRef where
  | module (id : Nat)
  | array (a : HitArray)
  deriving DecidableEq, Repr

/-- The global variables of the program that the handlers read and write. -/
structure Scene where
  modules : List Module
  draggedModule : Option DragRef
  crewCapacity : Nat
  scoreText : String
  adviceText : String
  deriving DecidableEq, Repr

/-! ## Geometry -/

/-- The function `Phaser.Math.Distance.Between(x1, y1, x2, y2)`. -/
def distanceBetween (x1 y1 x2 y2 : Double) : Double :=
  let dx := x1 - x2
  let dy := y1 - y2
  Double.sqrt (dx * dx + dy * dy)

/-! ## Placement validity -/

/-- The `for (const otherModule of modules)` loop of `isModulePlacementValid`: the module itself
and palette entries are skipped, the first overlapping module returns `false`. -/
def overlapLoop (m : Module) : List Module → Bool
  | [] => true
  | otherModule :: rest =>
    if otherModule.id = m.id ∨ otherModule.isPalette = true then
      overlapLoop m rest
    else
      let distance := distanceBetween m.x m.y otherModule.x otherModule.y
      let minDistance :=
        (Double.ofNat m.moduleData.size + Double.ofNat otherModule.moduleData.size) / 2
      if Double.lt distance minDistance = true then
        false
      else
        overlapLoop m rest

/-- `isModulePlacementValid(module)` for a module object, with the global `modules` as first
argument. -/
def isModulePlacementValid (modules : List Module) (m : Module) : Bool :=
  let distanceFromCenter := distanceBetween 400 300 m.x m.y
  let radius := Double.ofNat m.moduleData.size / 2
  if Double.gt (distanceFromCenter + radius) 250 = true then
    false
  else
    overlapLoop m modules

/-- The message of the error thrown on reading a property of `undefined`. -/
def sizeOfUndefined : String :=
  "TypeError: Cannot read properties of undefined (reading 'size')"

/-- `isModulePlacementValid(module)` with the hit array for `module`: line 287 computes a distance
from the `x` and `y` assigned to the array; line 288 reads `module.moduleData.size`, and
`moduleData` is undefined on an array, so the call throws. -/
def isModulePlacementValidOfArray (_a : HitArray) : Except String Bool :=
  .error sizeOfUndefined

/-! ## Score -/

/-- Content of the score panel. -/
def scoreLine (crew valid : Nat) : String :=
  "CREW SUPPORTED: " ++ toString crew ++ "\nVALID MODULES: " ++ toString valid

/-- The loop of `updateScore`; the accumulator is `(crewCapacity, validModules)`. -/
def scoreLoop (modules : List Module) : List Module → Nat × Nat → Nat × Nat
  | [], acc => acc
  | m :: rest, acc =>
    if m.isPalette = false ∧ isModulePlacementValid modules m = true then
      scoreLoop modules rest (acc.1 + m.moduleData.crewSupport, acc.2 + 1)
    else
      scoreLoop modules rest acc

/-- The function `updateScore()`. -/
def updateScore (s : Scene) : Scene :=
  let r := scoreLoop s.modules s.modules (0, 0)
  { s with crewCapacity := r.1, scoreText := scoreLine r.1 r.2 }

/-! ## Advice -/

/-- Line appended for a hygiene module close to a kitchen (text as stored in the source file). -/
def hygieneWarning : String :=
  "âš ï¸ Move hygiene away from kitchen for safety!\n"

/-- Line appended for a sleep pod close to an exercise area. -/
def sleepWarning : String :=
  "âš ï¸ Consider placing sleep pods away from exercise areas!\n"

/-- Capacity tier message for crewCapacity equal to 0. -/
def placePrompt : String :=
  "ðŸ’¡ Place modules inside the habitat boundary to support crew!"

/-- Capacity tier message for crewCapacity at least 6. -/
def maxMessage : String :=
  "ðŸŽ‰ Excellent habitat design! Maximum crew capacity reached!"

/-- Capacity tier message for the remaining case. -/
def addMorePrompt : String :=
  "ðŸ’¡ Try adding more modules to increase crew capacity!"

/-- Text shown when the composed advice is the empty string. -/
def fallbackPrompt : String :=
  "ðŸ’¡ Drag modules from the palette to design your habitat!"

/-- The inner `for` loop of a proximity rule: scans `others`, appends `warning` at the first one
closer than `limit` to `a` and breaks. -/
def nearLoop (a : Module) (limit : Double) (warning : String) : List Module → String → String
  | [], advice => advice
  | b :: rest, advice =>
    if Double.lt (distanceBetween a.x a.y b.x b.y) limit = true then
      advice ++ warning
    else
      nearLoop a limit warning rest advice

/-- The outer `for` loop of a proximity rule. -/
def warnLoop (limit : Double) (warning : String) (others : List Module) :
    List Module → String → String
  | [], advice => advice
  | a :: rest, advice => warnLoop limit warning others rest (nearLoop a limit warning others advice)

/-- The filter `modules.filter(m => !m.isPalette && m.moduleType === key &&
isModulePlacementValid(m))`. -/
def validOfType (modules : List Module) (key : ModuleKey) : List Module :=
  modules.filter fun m =>
    !m.isPalette && decide (m.moduleType = key) && isModulePlacementValid modules m

/-- The text `updateAdvice()` builds in its local variable `advice`. -/
def composeAdvice (modules : List Module) (crewCapacity : Nat) : String :=
  let advice := ""
  let hygieneModules := validOfType modules .HYGIENE
  let kitchenModules := validOfType modules .KITCHEN
  let advice := warnLoop 100 hygieneWarning kitchenModules hygieneModules advice
  let sleepPods := validOfType modules .SLEEP_POD
  let exerciseModules := validOfType modules .EXERCISE
  let advice := warnLoop 80 sleepWarning exerciseModules sleepPods advice
  if crewCapacity = 0 then
    advice ++ placePrompt
  else if 6 ≤ crewCapacity then
    advice ++ maxMessage
  else
    advice ++ addMorePrompt

/-- The function `updateAdvice()`: the empty string is falsy, so it is replaced by the fallback. -/
def updateAdvice (s : Scene) : Scene :=
  let advice := composeAdvice s.modules s.crewCapacity
  { s with adviceText := if advice = "" then fallbackPrompt else advice }

/-! ## Scene creation -/

/-- The loop of `createModulePalette()`; a new object takes the next free identity. -/
def paletteLoop : List ModuleKey → Nat → List Module → List Module
  | [], _, modules => modules
  | key :: rest, index, modules =>
    paletteLoop rest (index + 1) (modules ++ [{
      id := modules.length
      x := 650
      y := 50 + Double.ofNat index * 70
      moduleType := key
      moduleData := MODULE_TYPES key
      isPalette := true
      isDragging := false
      strokeWidth := 2
      strokeColor := 0xffffff }])

/-- The function `createModulePalette()`. -/
def createModulePalette (s : Scene) : Scene :=
  { s with modules := paletteLoop moduleKeys 0 s.modules }

/-- The scene after `create()` has run on the initial values of the globals. -/
def create : Scene :=
  updateAdvice (updateScore (createModulePalette
    { modules := [], draggedModule := none, crewCapacity := 0, scoreText := "", adviceText := "" }))

/-! ## Pointer handlers -/

/-- Dereference of an object identity in `modules`. -/
def findModule (modules : List Module) (id : Nat) : Option Module :=
  modules.find? fun m => m.id = id

/-- Assignment to fields of the object `id`: `f` rewrites that object, every other object is
left as it is. -/
def updateObject (modules : List Module) (id : Nat) (f : Module → Module) : List Module :=
  modules.map fun o => if o.id = id then f o else o

/-- The call `module.setStrokeStyle(width, color)` on the object `id`. -/
def setStrokeStyle (modules : List Module) (id width color : Nat) : List Module :=
  updateObject modules id fun m => { m with strokeWidth := width, strokeColor := color }

/-- The function `updateModuleValidity(module)` for a module object. -/
def updateModuleValidity (modules : List Module) (m : Module) : List Module :=
  if m.isPalette then
    modules
  else
    let isValid := isModulePlacementValid modules m
    let outlineColor := if isValid then 0x00ff00 else 0xff0000
    setStrokeStyle modules m.id 3 outlineColor

/-- The function `updateModuleValidity(module)` with the hit array for `module`:
`module.isPalette` is undefined, so there is no early return, and the validity test throws before
any outline is set. -/
def updateModuleValidityOfArray (a : HitArray) : Except String Unit :=
  match isModulePlacementValidOfArray a with
  | .ok _ => .ok ()
  | .error e => .error e

/-- The values the local variable `module` of `onPointerDown` is embedded on: null, a module
object (by identity; an identity that names no module is treated as null), or an array of game
objects.  Phaser 3 returns the array. -/
inductive HitResult where
  | null
  | module (id : Nat)
  | array (objects : List Nat)
  deriving DecidableEq, Repr

/-- The object `onPointerDown` creates from the palette template `t` at the pointer position:
a rectangle with the template's size and colour, white outline, marked as being dragged. -/
def spawnModule (id : Nat) (x y : Double) (t : Module) : Module :=
  { id := id
    x := x
    y := y
    moduleType := t.moduleType
    moduleData := t.moduleData
    isPalette := false
    isDragging := true
    strokeWidth := 2
    strokeColor := 0xffffff }

/-- The module object a hit result is, if it is one. -/
def hitModule (modules : List Module) : HitResult → Option Module
  | .module id => findModule modules id
  | _ => none

/-- The handler `onPointerDown(pointer)`, `hit` being what `this.input.hitTestPointer(pointer)`
returned.  On a palette template a new module is created; on a placed module that module becomes
the dragged one; an array is truthy and its `isPalette` is undefined, so the second branch stores
the array itself in `draggedModule` and sets `isDragging` on it. -/
def onPointerDown (s : Scene) (x y : Double) (hit : HitResult) : Scene :=
  match hit with
  | .array objects =>
    { s with
      draggedModule :=
        some (.array { objects := objects, x := none, y := none, isDragging := true }) }
  | _ =>
    match hitModule s.modules hit with
    | some m =>
      if m.isPalette then
        let newModule := spawnModule s.modules.length x y m
        let modules := s.modules ++ [newModule]
        { s with
          modules := updateModuleValidity modules newModule
          draggedModule := some (.module newModule.id) }
      else
        { s with
          draggedModule := some (.module m.id)
          modules := updateObject s.modules m.id fun o => { o with isDragging := true } }
    | none => s

/-- What a handler that throws leaves behind: the error and the scene with the assignments made
before the throw. -/
structure Thrown where
  message : String
  scene : Scene
  deriving DecidableEq, Repr

/-- The handler `onPointerMove(pointer)`.  With a module dragged its position follows the pointer
and its outline is refreshed.  With a hit array dragged, `x` and `y` are assigned to the array and
`updateModuleValidity` throws. -/
def onPointerMove (s : Scene) (x y : Double) : Except Thrown Scene :=
  match s.draggedModule with
  | some (.module id) =>
    match findModule s.modules id with
    | some d =>
      if d.isDragging then
        let modules := updateObject s.modules d.id fun o => { o with x := x, y := y }
        .ok { s with modules := updateModuleValidity modules { d with x := x, y := y } }
      else
        .ok s
    | none => .ok s
  | some (.array a) =>
    if a.isDragging then
      let moved : HitArray := { a with x := some x, y := some y }
      match updateModuleValidityOfArray moved with
      | .ok _ => .ok { s with draggedModule := some (.array moved) }
      | .error e =>
        .error { message := e, scene := { s with draggedModule := some (.array moved) } }
    else
      .ok s
  | none => .ok s

/-- The handler `onPointerUp(pointer)`. -/
def onPointerUp (s : Scene) : Scene :=
  match s.draggedModule with
  | some (.module d) =>
    updateAdvice (updateScore { s with
      modules := updateObject s.modules d fun o => { o with isDragging := false }
      draggedModule := none })
  | some (.array _) => updateAdvice (updateScore { s with draggedModule := none })
  | none => s

/-- The three input events; a pointer-down carries the game objects under the pointer, which is
what the hit test lists. -/
inductive PointerEvent where
  | pointerdown (x y : Double) (under : List Nat)
  | pointermove (x y : Double)
  | pointerup (x y : Double)
  deriving DecidableEq, Repr

/-- Dispatch of one event to its handler; the hit test gives an array. -/
def handle (s : Scene) : PointerEvent → Except Thrown Scene
  | .pointerdown x y under => .ok (onPointerDown s x y (.array under))
  | .pointermove x y => onPointerMove s x y
  | .pointerup _ _ => .ok (onPointerUp s)

/-- The scene after one event, whether its handler returned or threw. -/
def step (s : Scene) (e : PointerEvent) : Scene :=
  match handle s e with
  | .ok t => t
  | .error thrown => thrown.scene

/-- The scene after a sequence of events. -/
def run (s : Scene) (events : List PointerEvent) : Scene :=
  events.foldl step s

/-! ## Sample data -/

/-- A placed module of type `key` with identity `id`, resting at `(x, y)`. -/
def placedModule (id : Nat) (key : ModuleKey) (x y : Double) : Module :=
  { id := id
    x := x
    y := y
    moduleType := key
    moduleData := MODULE_TYPES key
    isPalette := false
    isDragging := false
    strokeWidth := 3
    strokeColor := 0x00ff00 }

/-- A scene over `modules` with no drag in progress and `crewCapacity` as given. -/
def sceneOf (modules : List Module) (crewCapacity : Nat) : Scene :=
  { modules := modules
    draggedModule := none
    crewCapacity := crewCapacity
    scoreText := ""
    adviceText := "" }

/-- The six palette templates, as `create()` leaves them. -/
def paletteModules : List Module :=
  create.modules

/-- The placed modules that count: not a palette entry and validly placed. -/
def validPlaced (modules : List Module) : List Module :=
  modules.filter fun m => !m.isPalette && isModulePlacementValid modules m

/-- Sum of `crewSupport` over the valid placed modules. -/
def crewSum (modules : List Module) : Nat :=
  ((validPlaced modules).map fun m => m.moduleData.crewSupport).sum

/-- A sleep pod at the position written (461.6, 88.8). -/
def offGridPod : Module :=
  placedModule 6 .SLEEP_POD ((4616 : Double) / 10) ((888 : Double) / 10)

/-- A hygiene module at the position written (484.8, 203.3). -/
def offGridHygiene : Module :=
  placedModule 6 .HYGIENE ((4848 : Double) / 10) ((2033 : Double) / 10)

/-- A kitchen at the position written (512.8, 107.3). -/
def offGridKitchen : Module :=
  placedModule 7 .KITCHEN ((5128 : Double) / 10) ((1073 : Double) / 10)

/-- Six placed modules whose crew support sums to 6, none overlapping, all inside the boundary;
the last one, the command centre, is being dragged, and score and advice are stale. -/
def releaseScene : Scene :=
  { modules := paletteModules ++
      [placedModule 6 .SLEEP_POD 300 200, placedModule 7 .KITCHEN 500 200,
        placedModule 8 .EXERCISE 300 400, placedModule 9 .STORAGE 500 400,
        placedModule 10 .HYGIENE 400 300,
        { placedModule 11 .COMMAND 400 150 with isDragging := true }]
    draggedModule := some (.module 11)
    crewCapacity := 0
    scoreText := scoreLine 0 0
    adviceText := placePrompt }

/-- Two overlapping sleep pods, the second being dragged; the first carries the green outline it
got when it was alone. -/
def overlapScene : Scene :=
  { modules := paletteModules ++
      [placedModule 6 .SLEEP_POD 400 300,
        { placedModule 7 .SLEEP_POD 650 50 with isDragging := true, strokeColor := 0xff0000 }]
    draggedModule := some (.module 7)
    crewCapacity := 2
    scoreText := scoreLine 2 1
    adviceText := addMorePrompt }

/-! ## Reachable scenes -/

/-- What a module is, apart from where it lies and how it is drawn: identity, type, data and the
palette flag. -/
def Module.stamp (m : Module) : Nat × ModuleKey × ModuleData × Bool :=
  (m.id, m.moduleType, m.moduleData, m.isPalette)


/-- Invariant of the event dispatch: the module list is the one `create()` built, and what is
dragged, if anything, is a hit array. -/
def ArrayInv (s : Scene) : Prop :=
  s.modules = paletteModules ∧ ∀ d, s.draggedModule = some d → ∃ a, d = .array a

/-! ## Reading the advice text -/

/-- The capacity tier message `updateAdvice()` appends for a crew capacity. -/
def tierMessage (crewCapacity : Nat) : String :=
  if crewCapacity = 0 then placePrompt
  else if 6 ≤ crewCapacity then maxMessage
  else addMorePrompt

/-- The text made of `n` copies of `w`. -/
def repeatText (w : String) : Nat → String
  | 0 => ""
  | n + 1 => w ++ repeatText w n

/-- The text `t` occurs in `s` as a contiguous run of characters. -/
def containsText (s t : String) : Prop :=
  t.data <:+: s.data

/-- The text `s` ends with `t`. -/
def endsWithText (s t : String) : Prop :=
  t.data <:+ s.data

/-- The lines of a text: the runs of characters between line feeds. -/
def splitLines : List Char → List (List Char)
  | [] => [[]]
  | c :: cs =>
    if c = '\n' then
      [] :: splitLines cs
    else
      match splitLines cs with
      | [] => [[c]]
      | l :: ls => (c :: l) :: ls

/-- Number of lines of `text` that, with their line feed, read `warning`. -/
def warningLines (text warning : String) : Nat :=
  (splitLines text.data).countP fun l => decide (l ++ ['\n'] = warning.data)

/-- Whether some module of `others` lies at computed centre distance below `limit` from `a`. -/
def nearAny (a : Module) (limit : Double) (others : List Module) : Bool :=
  others.any fun b => Double.lt (distanceBetween a.x a.y b.x b.y) limit

/-! ## Placement validity: the loop as a universal statement -/

theorem overlapLoop_eq_true (m : Module) (modules : List Module) :
    overlapLoop m modules = true ↔
      ∀ o ∈ modules, o.isPalette = false → o.id ≠ m.id →
        Double.lt (distanceBetween m.x m.y o.x o.y)
          ((Double.ofNat m.moduleData.size + Double.ofNat o.moduleData.size) / 2) = false := by
  induction modules with
  | nil => simp [overlapLoop]
  | cons o rest ih =>
    unfold overlapLoop
    by_cases hskip : o.id = m.id ∨ o.isPalette = true
    · rw [if_pos hskip, ih]
      constructor
      · intro h p hp hpal hid
        rcases List.mem_cons.mp hp with rfl | hp
        · rcases hskip with h1 | h1
          · exact absurd h1 hid
          · rw [hpal] at h1
            exact absurd h1 (by decide)
        · exact h p hp hpal hid
      · intro h p hp
        exact h p (List.mem_cons_of_mem _ hp)
    · rw [if_neg hskip]
      have hid : o.id ≠ m.id := fun h => hskip (Or.inl h)
      have hpal : o.isPalette = false := by
        cases hb : o.isPalette
        · rfl
        · exact absurd (Or.inr hb) hskip
      simp only
      by_cases hov : Double.lt (distanceBetween m.x m.y o.x o.y)
          ((Double.ofNat m.moduleData.size + Double.ofNat o.moduleData.size) / 2) = true
      · rw [if_pos hov]
        constructor
        · intro h
          exact absurd h (by decide)
        · intro h
          have := h o (List.mem_cons_self _ _) hpal hid
          rw [hov] at this
          exact absurd this (by decide)
      · rw [if_neg hov, ih]
        have hov' : Double.lt (distanceBetween m.x m.y o.x o.y)
            ((Double.ofNat m.moduleData.size + Double.ofNat o.moduleData.size) / 2) = false := by
          simpa using hov
        constructor
        · intro h p hp hpal' hid'
          rcases List.mem_cons.mp hp with rfl | hp
          · exact hov'
          · exact h p hp hpal' hid'
        · intro h p hp
          exact h p (List.mem_cons_of_mem _ hp)

theorem isModulePlacementValid_eq_true (modules : List Module) (m : Module) :
    isModulePlacementValid modules m = true ↔
      Double.gt (distanceBetween 400 300 m.x m.y + Double.ofNat m.moduleData.size / 2) 250
          = false ∧
        ∀ o ∈ modules, o.isPalette = false → o.id ≠ m.id →
          Double.lt (distanceBetween m.x m.y o.x o.y)
            ((Double.ofNat m.moduleData.size + Double.ofNat o.moduleData.size) / 2) = false := by
  unfold isModulePlacementValid
  simp only
  cases hb : Double.gt (distanceBetween 400 300 m.x m.y + Double.ofNat m.moduleData.size / 2) 250
  · simp [overlapLoop_eq_true]
  · simp

/-! ## Score: the loop as a sum -/

theorem scoreLoop_eq (modules : List Module) (l : List Module) (acc : Nat × Nat) :
    scoreLoop modules l acc =
      (acc.1 + ((l.filter fun m => !m.isPalette && isModulePlacementValid modules m).map
          fun m => m.moduleData.crewSupport).sum,
        acc.2 + (l.filter fun m => !m.isPalette && isModulePlacementValid modules m).length) := by
  induction l generalizing acc with
  | nil => simp [scoreLoop]
  | cons m rest ih =>
    unfold scoreLoop
    by_cases h : m.isPalette = false ∧ isModulePlacementValid modules m = true
    · rw [if_pos h, ih]
      have hp : (!m.isPalette && isModulePlacementValid modules m) = true := by
        simp [h.1, h.2]
      simp only [List.filter_cons, hp, if_true, List.map_cons, List.sum_cons, List.length_cons]
      ext <;> simp only <;> omega
    · rw [if_neg h, ih]
      have hp : ¬ (!m.isPalette && isModulePlacementValid modules m) = true := by
        intro hc
        apply h
        simpa using hc
      simp only [List.filter_cons, hp, if_false]
      rfl

theorem scoreLoop_validPlaced (modules : List Module) :
    scoreLoop modules modules (0, 0) =
      (((validPlaced modules).map fun m => m.moduleData.crewSupport).sum,
        (validPlaced modules).length) := by
  rw [scoreLoop_eq]
  simp [validPlaced]

theorem isModulePlacementValid_perm {l₁ l₂ : List Module} (h : l₁.Perm l₂) (m : Module) :
    isModulePlacementValid l₂ m = isModulePlacementValid l₁ m := by
  have key : isModulePlacementValid l₂ m = true ↔ isModulePlacementValid l₁ m = true := by
    rw [isModulePlacementValid_eq_true, isModulePlacementValid_eq_true]
    constructor
    · rintro ⟨hb, ho⟩
      exact ⟨hb, fun o hmem => ho o (h.mem_iff.mp hmem)⟩
    · rintro ⟨hb, ho⟩
      exact ⟨hb, fun o hmem => ho o (h.mem_iff.mpr hmem)⟩
  cases h1 : isModulePlacementValid l₁ m <;> cases h2 : isModulePlacementValid l₂ m <;>
    simp_all

theorem validPlaced_perm {l₁ l₂ : List Module} (h : l₁.Perm l₂) :
    (validPlaced l₁).Perm (validPlaced l₂) := by
  unfold validPlaced
  have hf : (fun m : Module => !m.isPalette && isModulePlacementValid l₂ m) =
      (fun m : Module => !m.isPalette && isModulePlacementValid l₁ m) := by
    funext m
    rw [isModulePlacementValid_perm h]
  rw [hf]
  exact h.filter _

/-! ## Claims on validity and score -/

/-- C1, counterexample: with the six templates and one sleep pod at the position written
(461.6, 88.8), `isModulePlacementValid` returns true (the computed distance from (400, 300) is
exactly 220), while the Euclidean distance from (400, 300) to that position plus half the size
exceeds 250. -/
theorem C1_euclidean_counterexample :
    isModulePlacementValid (paletteModules ++ [offGridPod]) offGridPod = true ∧
      distanceBetween 400 300 offGridPod.x offGridPod.y = 220 ∧
      ¬ (Real.sqrt (((400 : ℝ) - (offGridPod.x.toRat : ℝ)) ^ 2 +
          ((300 : ℝ) - (offGridPod.y.toRat : ℝ)) ^ 2) +
        (offGridPod.moduleData.size : ℝ) / 2 ≤ 250) := by
  refine ⟨by decide, by decide, ?_⟩
  have hx : offGridPod.x = Double.finite 4060276539051213 (-43) := by decide
  have hy : offGridPod.y = Double.finite 6248744482976563 (-46) := by decide
  have hs : offGridPod.moduleData.size = 60 := by decide
  rw [hx, hy, hs, not_le]
  simp only [Double.toRat]
  have h2 : ∀ v : ℝ, 220 < v → 250 < v + ((60 : ℕ) : ℝ) / 2 := fun v hv => by
    push_cast
    linarith
  apply h2
  rw [Real.lt_sqrt (by norm_num)]
  push_cast
  norm_num

/-- C1, amended: with every distance taken as `Phaser.Math.Distance.Between` returns it and every
sum and quotient as the double operation, `isModulePlacementValid(m)` is true exactly when the
distance from (400, 300) to the centre of `m` plus half its size is not greater than 250 and no
other non-palette module of the list lies at a distance less than half the sum of the two sizes.
Palette entries and `m` itself are not consulted.  Sizes 60 and 50 at centre distance exactly 55
do not overlap, at distance 54 they do. -/
theorem C1_isModulePlacementValid_iff :
    (∀ (modules : List Module) (m : Module),
      (isModulePlacementValid modules m = true ↔
        (Double.gt (distanceBetween 400 300 m.x m.y + Double.ofNat m.moduleData.size / 2) 250
            = false ∧
          ∀ o ∈ modules, o.isPalette = false → o.id ≠ m.id →
            Double.lt (distanceBetween m.x m.y o.x o.y)
              ((Double.ofNat m.moduleData.size + Double.ofNat o.moduleData.size) / 2)
              = false))) ∧
    distanceBetween 400 300 455 300 = 55 ∧
    isModulePlacementValid
      (paletteModules ++ [placedModule 6 .SLEEP_POD 400 300, placedModule 7 .KITCHEN 455 300])
      (placedModule 6 .SLEEP_POD 400 300) = true ∧
    isModulePlacementValid
      (paletteModules ++ [placedModule 6 .SLEEP_POD 400 300, placedModule 7 .KITCHEN 455 300])
      (placedModule 7 .KITCHEN 455 300) = true ∧
    isModulePlacementValid
      (paletteModules ++ [placedModule 6 .SLEEP_POD 400 300, placedModule 7 .KITCHEN 454 300])
      (placedModule 6 .SLEEP_POD 400 300) = false := by
  refine ⟨isModulePlacementValid_eq_true, ?_, ?_, ?_, ?_⟩ <;> decide

/-- C2: `updateScore` sets `crewCapacity` to the sum of `crewSupport` over the non-palette modules
whose placement is valid and reports their number as the valid-module count; the previous value
of `crewCapacity` does not enter the result. -/
theorem C2_updateScore_sum (s : Scene) :
    (updateScore s).crewCapacity =
        ((s.modules.filter fun m => !m.isPalette && isModulePlacementValid s.modules m).map
          fun m => m.moduleData.crewSupport).sum ∧
      (updateScore s).scoreText =
        scoreLine
          ((s.modules.filter fun m => !m.isPalette && isModulePlacementValid s.modules m).map
            fun m => m.moduleData.crewSupport).sum
          (s.modules.filter fun m => !m.isPalette && isModulePlacementValid s.modules m).length ∧
      scoreLoop s.modules s.modules (0, 0) =
        (((s.modules.filter fun m => !m.isPalette && isModulePlacementValid s.modules m).map
            fun m => m.moduleData.crewSupport).sum,
          (s.modules.filter fun m => !m.isPalette && isModulePlacementValid s.modules m).length) ∧
      ∀ c : Nat, updateScore { s with crewCapacity := c } = updateScore s := by
  have h := scoreLoop_validPlaced s.modules
  unfold validPlaced at h
  refine ⟨?_, ?_, h, ?_⟩
  · simp only [updateScore, h]
  · simp only [updateScore, h]
  · intro c
    simp only [updateScore]

/-- C3: reordering the module list changes neither the validity of any module nor the crew
capacity and valid-module count that `updateScore` computes. -/
theorem C3_order_independent (l₁ l₂ : List Module) (h : l₁.Perm l₂) (s : Scene) :
    (∀ m : Module, isModulePlacementValid l₂ m = isModulePlacementValid l₁ m) ∧
      (updateScore { s with modules := l₂ }).crewCapacity =
        (updateScore { s with modules := l₁ }).crewCapacity ∧
      (updateScore { s with modules := l₂ }).scoreText =
        (updateScore { s with modules := l₁ }).scoreText ∧
      scoreLoop l₂ l₂ (0, 0) = scoreLoop l₁ l₁ (0, 0) := by
  have hp := validPlaced_perm h
  have hloop : scoreLoop l₂ l₂ (0, 0) = scoreLoop l₁ l₁ (0, 0) := by
    rw [scoreLoop_validPlaced, scoreLoop_validPlaced]
    rw [(hp.map fun m => m.moduleData.crewSupport).sum_eq, hp.length_eq]
  refine ⟨isModulePlacementValid_perm h, ?_, ?_, hloop⟩
  · simp only [updateScore, hloop]
  · simp only [updateScore, hloop]

/-- C3 at a concrete list: two overlapping sleep pods and a kitchen, in two orders. -/
theorem C3_order_independent_witness :
    (∀ m : Module,
      isModulePlacementValid
          [placedModule 8 .KITCHEN 300 300, placedModule 6 .SLEEP_POD 400 300,
            placedModule 7 .SLEEP_POD 420 300] m =
        isModulePlacementValid
          [placedModule 6 .SLEEP_POD 400 300, placedModule 7 .SLEEP_POD 420 300,
            placedModule 8 .KITCHEN 300 300] m) ∧
      scoreLoop
          [placedModule 8 .KITCHEN 300 300, placedModule 6 .SLEEP_POD 400 300,
            placedModule 7 .SLEEP_POD 420 300]
          [placedModule 8 .KITCHEN 300 300, placedModule 6 .SLEEP_POD 400 300,
            placedModule 7 .SLEEP_POD 420 300] (0, 0) = (1, 1) := by
  have h := C3_order_independent
    [placedModule 6 .SLEEP_POD 400 300, placedModule 7 .SLEEP_POD 420 300,
      placedModule 8 .KITCHEN 300 300]
    [placedModule 8 .KITCHEN 300 300, placedModule 6 .SLEEP_POD 400 300,
      placedModule 7 .SLEEP_POD 420 300]
    (by decide) (sceneOf [] 0)
  refine ⟨h.1, ?_⟩
  rw [h.2.2.2]
  decide

theorem paletteModules_isPalette : ∀ o ∈ paletteModules, o.isPalette = true := by
  decide

theorem validPlaced_palette_single (m : Module) (hm : m.isPalette = false) :
    validPlaced (paletteModules ++ [m]) =
      if isModulePlacementValid (paletteModules ++ [m]) m = true then [m] else [] := by
  unfold validPlaced
  rw [List.filter_append]
  have hpal : paletteModules.filter
      (fun o => !o.isPalette && isModulePlacementValid (paletteModules ++ [m]) o) = [] := by
    rw [List.filter_eq_nil_iff]
    intro o ho
    simp [paletteModules_isPalette o ho]
  rw [hpal, List.nil_append]
  by_cases hv : isModulePlacementValid (paletteModules ++ [m]) m = true
  · simp [List.filter_cons, hm, hv]
  · simp [List.filter_cons, hm, hv]

/-- C4, counterexample: the list holds the six templates and one sleep pod at the position
written (461.6, 88.8).  The pod is valid and `updateScore` gives crew capacity 2 and count 1, while
the Euclidean distance from (400, 300) to the pod plus half its size exceeds 250. -/
theorem C4_euclidean_counterexample :
    isModulePlacementValid (paletteModules ++ [offGridPod]) offGridPod = true ∧
      (updateScore (sceneOf (paletteModules ++ [offGridPod]) 0)).crewCapacity = 2 ∧
      scoreLoop (paletteModules ++ [offGridPod]) (paletteModules ++ [offGridPod]) (0, 0) = (2, 1) ∧
      (250 : ℝ) < Real.sqrt (((400 : ℝ) - (offGridPod.x.toRat : ℝ)) ^ 2 +
          ((300 : ℝ) - (offGridPod.y.toRat : ℝ)) ^ 2) +
        (offGridPod.moduleData.size : ℝ) / 2 := by
  refine ⟨by decide, by decide, by decide, ?_⟩
  have hx : offGridPod.x = Double.finite 4060276539051213 (-43) := by decide
  have hy : offGridPod.y = Double.finite 6248744482976563 (-46) := by decide
  have hs : offGridPod.moduleData.size = 60 := by decide
  rw [hx, hy, hs]
  simp only [Double.toRat]
  have h2 : ∀ v : ℝ, 220 < v → 250 < v + ((60 : ℕ) : ℝ) / 2 := fun v hv => by
    push_cast
    linarith
  apply h2
  rw [Real.lt_sqrt (by norm_num)]
  push_cast
  norm_num

/-- C4, amended: with the six palette templates and one placed module `m` in the list, `m` is
valid exactly when its distance from (400, 300), as `Phaser.Math.Distance.Between` returns it,
plus half its size, added as doubles, is not greater than 250; `updateScore` then yields the crew
support of `m` and count 1 when `m` is valid, and 0 and 0 when it is not. -/
theorem C4_single_placed_module (modules : List Module) (m : Module)
    (hperm : modules.Perm (paletteModules ++ [m])) (hm : m.isPalette = false) (s : Scene) :
    (isModulePlacementValid modules m = true ↔
        Double.gt (distanceBetween 400 300 m.x m.y + Double.ofNat m.moduleData.size / 2) 250
          = false) ∧
      (isModulePlacementValid modules m = true →
        (updateScore { s with modules := modules }).crewCapacity = m.moduleData.crewSupport ∧
          (updateScore { s with modules := modules }).scoreText =
            scoreLine m.moduleData.crewSupport 1 ∧
          scoreLoop modules modules (0, 0) = (m.moduleData.crewSupport, 1)) ∧
      (isModulePlacementValid modules m = false →
        (updateScore { s with modules := modules }).crewCapacity = 0 ∧
          (updateScore { s with modules := modules }).scoreText = scoreLine 0 0 ∧
          scoreLoop modules modules (0, 0) = (0, 0)) := by
  have hvalid : isModulePlacementValid (paletteModules ++ [m]) m =
      isModulePlacementValid modules m := isModulePlacementValid_perm hperm m
  have hvp := validPlaced_perm hperm
  rw [validPlaced_palette_single m hm, hvalid] at hvp
  refine ⟨?_, ?_, ?_⟩
  · rw [isModulePlacementValid_eq_true]
    constructor
    · exact fun h => h.1
    · intro h
      refine ⟨h, ?_⟩
      intro o ho hpal hid
      rcases List.mem_append.mp (hperm.mem_iff.mp ho) with hmem | hmem
      · rw [paletteModules_isPalette o hmem] at hpal
        exact absurd hpal (by decide)
      · rw [List.mem_singleton] at hmem
        exact absurd (congrArg Module.id hmem) hid
  · intro hv
    rw [if_pos hv] at hvp
    have hloop : scoreLoop modules modules (0, 0) = (m.moduleData.crewSupport, 1) := by
      rw [scoreLoop_validPlaced, (hvp.map fun o => o.moduleData.crewSupport).sum_eq,
        hvp.length_eq]
      simp
    refine ⟨?_, ?_, hloop⟩
    · simp only [updateScore, hloop]
    · simp only [updateScore, hloop]
  · intro hv
    rw [if_neg (by simp [hv])] at hvp
    have hloop : scoreLoop modules modules (0, 0) = (0, 0) := by
      rw [scoreLoop_validPlaced, (hvp.map fun o => o.moduleData.crewSupport).sum_eq,
        hvp.length_eq]
      simp
    refine ⟨?_, ?_, hloop⟩
    · simp only [updateScore, hloop]
    · simp only [updateScore, hloop]

/-- C4, amended, at the two scenarios: a SLEEP_POD at (400, 300) is valid and scores 2 and 1; the same
SLEEP_POD at (700, 300) is invalid and scores 0 and 0. -/
theorem C4_single_placed_module_witness :
    (isModulePlacementValid (paletteModules ++ [placedModule 6 .SLEEP_POD 400 300])
          (placedModule 6 .SLEEP_POD 400 300) = true ∧
        (updateScore (sceneOf (paletteModules ++ [placedModule 6 .SLEEP_POD 400 300]) 0)).crewCapacity
          = 2 ∧
        scoreLoop (paletteModules ++ [placedModule 6 .SLEEP_POD 400 300])
          (paletteModules ++ [placedModule 6 .SLEEP_POD 400 300]) (0, 0) = (2, 1)) ∧
      (isModulePlacementValid (paletteModules ++ [placedModule 6 .SLEEP_POD 700 300])
          (placedModule 6 .SLEEP_POD 700 300) = false ∧
        (updateScore (sceneOf (paletteModules ++ [placedModule 6 .SLEEP_POD 700 300]) 0)).crewCapacity
          = 0 ∧
        scoreLoop (paletteModules ++ [placedModule 6 .SLEEP_POD 700 300])
          (paletteModules ++ [placedModule 6 .SLEEP_POD 700 300]) (0, 0) = (0, 0)) := by
  have h1 := C4_single_placed_module (paletteModules ++ [placedModule 6 .SLEEP_POD 400 300])
    (placedModule 6 .SLEEP_POD 400 300) (List.Perm.refl _) rfl
    (sceneOf (paletteModules ++ [placedModule 6 .SLEEP_POD 400 300]) 0)
  have h2 := C4_single_placed_module (paletteModules ++ [placedModule 6 .SLEEP_POD 700 300])
    (placedModule 6 .SLEEP_POD 700 300) (List.Perm.refl _) rfl
    (sceneOf (paletteModules ++ [placedModule 6 .SLEEP_POD 700 300]) 0)
  have v1 : isModulePlacementValid (paletteModules ++ [placedModule 6 .SLEEP_POD 400 300])
      (placedModule 6 .SLEEP_POD 400 300) = true := by decide
  have v2 : isModulePlacementValid (paletteModules ++ [placedModule 6 .SLEEP_POD 700 300])
      (placedModule 6 .SLEEP_POD 700 300) = false := by decide
  exact ⟨⟨v1, (h1.2.1 v1).1, (h1.2.1 v1).2.2⟩, ⟨v2, (h2.2.2 v2).1, (h2.2.2 v2).2.2⟩⟩

/-! ## Advice: the loops as text -/

theorem nearLoop_eq (a : Module) (limit : Double) (w : String) (others : List Module)
    (advice : String) :
    nearLoop a limit w others advice = if nearAny a limit others = true then advice ++ w
      else advice := by
  induction others with
  | nil => simp [nearLoop, nearAny]
  | cons b rest ih =>
    unfold nearLoop
    by_cases hb : Double.lt (distanceBetween a.x a.y b.x b.y) limit = true
    · simp [hb, nearAny]
    · rw [if_neg hb, ih]
      simp [nearAny, hb]

theorem repeatText_succ (w : String) (n : Nat) : repeatText w (n + 1) = w ++ repeatText w n :=
  rfl

theorem warnLoop_eq (limit : Double) (w : String) (others : List Module) (l : List Module)
    (advice : String) :
    warnLoop limit w others l advice =
      advice ++ repeatText w (l.countP fun a => nearAny a limit others) := by
  induction l generalizing advice with
  | nil => simp [warnLoop, repeatText]
  | cons a rest ih =>
    unfold warnLoop
    rw [ih, nearLoop_eq, List.countP_cons]
    by_cases ha : nearAny a limit others = true
    · simp only [ha, if_true]
      rw [String.append_assoc, ← repeatText_succ]
    · simp only [ha, if_false, Bool.false_eq_true, Nat.add_zero]

theorem composeAdvice_eq (modules : List Module) (crewCapacity : Nat) :
    composeAdvice modules crewCapacity =
      repeatText hygieneWarning
          ((validOfType modules .HYGIENE).countP fun a =>
            nearAny a 100 (validOfType modules .KITCHEN)) ++
        (repeatText sleepWarning
            ((validOfType modules .SLEEP_POD).countP fun a =>
              nearAny a 80 (validOfType modules .EXERCISE)) ++
          tierMessage crewCapacity) := by
  unfold composeAdvice tierMessage
  simp only [warnLoop_eq, String.empty_append]
  split_ifs <;> rw [String.append_assoc]

theorem tierMessage_ne_empty (c : Nat) : tierMessage c ≠ "" := by
  unfold tierMessage
  split_ifs <;> decide

theorem composeAdvice_ne_empty (modules : List Module) (c : Nat) :
    composeAdvice modules c ≠ "" := by
  rw [composeAdvice_eq]
  intro h
  have hd := congrArg String.data h
  simp only [String.data_append] at hd
  have h3 : (tierMessage c).data = [] := by
    have := List.append_eq_nil.mp hd
    exact (List.append_eq_nil.mp this.2).2
  exact tierMessage_ne_empty c (String.ext h3)

theorem updateAdvice_adviceText (s : Scene) :
    (updateAdvice s).adviceText = composeAdvice s.modules s.crewCapacity := by
  simp only [updateAdvice, composeAdvice_ne_empty, if_false]

/-! ## Advice: occurrences and lines -/

theorem mem_repeatText_data (w : String) (n : Nat) (c : Char) (hc : c ∈ (repeatText w n).data) :
    c ∈ w.data := by
  induction n with
  | zero => simp [repeatText] at hc
  | succ n ih =>
    rw [repeatText_succ, String.data_append, List.mem_append] at hc
    rcases hc with h | h
    · exact h
    · exact ih h

/-- A pattern whose first character does not occur in `l₁` can occur in `l₁ ++ l₂` only
inside `l₂`. -/
theorem infix_append_of_head_not_mem {c : Char} {p l₁ l₂ : List Char} (hc : c ∉ l₁)
    (h : (c :: p) <:+: (l₁ ++ l₂)) : (c :: p) <:+: l₂ := by
  induction l₁ with
  | nil => simpa using h
  | cons a rest ih =>
    have ha : c ≠ a := fun e => hc (e ▸ List.mem_cons_self _ _)
    have hrest : c ∉ rest := fun e => hc (List.mem_cons_of_mem _ e)
    rw [List.cons_append, List.infix_cons_iff] at h
    rcases h with h | h
    · rw [List.cons_prefix_cons] at h
      exact absurd h.1 ha
    · exact ih hrest h

theorem splitLines_ne_nil (l : List Char) : splitLines l ≠ [] := by
  induction l with
  | nil => simp [splitLines]
  | cons c cs ih =>
    unfold splitLines
    split_ifs
    · simp
    · split <;> simp

theorem splitLines_of_no_newline (l : List Char) (h : '\n' ∉ l) : splitLines l = [l] := by
  induction l with
  | nil => rfl
  | cons c cs ih =>
    have hc : c ≠ '\n' := fun e => h (e ▸ List.mem_cons_self _ _)
    have hcs : '\n' ∉ cs := fun e => h (List.mem_cons_of_mem _ e)
    unfold splitLines
    rw [if_neg hc, ih hcs]

theorem splitLines_append_newline (l rest : List Char) (h : '\n' ∉ l) :
    splitLines (l ++ '\n' :: rest) = l :: splitLines rest := by
  induction l with
  | nil => simp [splitLines]
  | cons c cs ih =>
    have hc : c ≠ '\n' := fun e => h (e ▸ List.mem_cons_self _ _)
    have hcs : '\n' ∉ cs := fun e => h (List.mem_cons_of_mem _ e)
    rw [List.cons_append]
    conv_lhs => unfold splitLines
    rw [if_neg hc, ih hcs]

theorem splitLines_repeatText (w : String) (body : List Char) (hw : w.data = body ++ ['\n'])
    (hb : '\n' ∉ body) (n : Nat) (rest : List Char) :
    splitLines ((repeatText w n).data ++ rest) = List.replicate n body ++ splitLines rest := by
  induction n with
  | zero => simp [repeatText]
  | succ n ih =>
    rw [repeatText_succ, String.data_append, hw, List.append_assoc, List.append_assoc,
      List.singleton_append, splitLines_append_newline _ _ hb, ih, List.replicate_succ,
      List.cons_append]

theorem composeAdvice_data (modules : List Module) (c : Nat) :
    ∃ a b : Nat, (composeAdvice modules c).data =
      (repeatText hygieneWarning a).data ++
        ((repeatText sleepWarning b).data ++ (tierMessage c).data) ∧
      a = (validOfType modules .HYGIENE).countP fun h =>
        nearAny h 100 (validOfType modules .KITCHEN) := by
  refine ⟨_, (validOfType modules .SLEEP_POD).countP fun a =>
    nearAny a 80 (validOfType modules .EXERCISE), ?_, rfl⟩
  rw [composeAdvice_eq, String.data_append, String.data_append]

/-- A text that opens with the letter of the tier messages occurs in the advice only if it
occurs in the tier message that closes it. -/
theorem composeAdvice_contains (modules : List Module) (c : Nat) (p : String)
    (hhead : p.data.head? = some 'ð')
    (h : containsText (composeAdvice modules c) p) : p.data <:+: (tierMessage c).data := by
  obtain ⟨tail, hp⟩ : ∃ tail, p.data = 'ð' :: tail := by
    cases hpd : p.data with
    | nil => simp [hpd] at hhead
    | cons c0 tail =>
      rw [hpd, List.head?_cons, Option.some.injEq] at hhead
      exact ⟨tail, by rw [hhead]⟩
  obtain ⟨a, b, hd, _⟩ := composeAdvice_data modules c
  unfold containsText at h
  rw [hd, hp] at h
  rw [hp]
  have h1 : 'ð' ∉ (repeatText hygieneWarning a).data := fun hc =>
    absurd (mem_repeatText_data _ _ _ hc) (by decide)
  have h2 : 'ð' ∉ (repeatText sleepWarning b).data := fun hc =>
    absurd (mem_repeatText_data _ _ _ hc) (by decide)
  exact infix_append_of_head_not_mem h2 (infix_append_of_head_not_mem h1 h)

theorem composeAdvice_endsWith (modules : List Module) (c : Nat) :
    endsWithText (composeAdvice modules c) (tierMessage c) := by
  obtain ⟨a, b, hd, _⟩ := composeAdvice_data modules c
  unfold endsWithText
  rw [hd, ← List.append_assoc]
  exact List.suffix_append _ _

/-! ## Claims on the advice -/

/-- C5: for every module list and crew capacity the advice ends with the capacity tier message
of that capacity (the place-modules prompt at 0, the maximum-reached message from 6 on, the
add-more prompt otherwise) and contains neither of the other two; it is never empty and the
fallback prompt is not what is displayed, nor does it occur in it. -/
theorem C5_capacity_tier (s : Scene) :
    (updateAdvice s).adviceText ≠ "" ∧
      (updateAdvice s).adviceText ≠ fallbackPrompt ∧
      ¬ containsText (updateAdvice s).adviceText fallbackPrompt ∧
      (if s.crewCapacity = 0 then
        endsWithText (updateAdvice s).adviceText placePrompt ∧
          ¬ containsText (updateAdvice s).adviceText maxMessage ∧
          ¬ containsText (updateAdvice s).adviceText addMorePrompt
      else if 6 ≤ s.crewCapacity then
        endsWithText (updateAdvice s).adviceText maxMessage ∧
          ¬ containsText (updateAdvice s).adviceText placePrompt ∧
          ¬ containsText (updateAdvice s).adviceText addMorePrompt
      else
        endsWithText (updateAdvice s).adviceText addMorePrompt ∧
          ¬ containsText (updateAdvice s).adviceText placePrompt ∧
          ¬ containsText (updateAdvice s).adviceText maxMessage) := by
  rw [updateAdvice_adviceText]
  have hend := composeAdvice_endsWith s.modules s.crewCapacity
  have hfb : ¬ containsText (composeAdvice s.modules s.crewCapacity) fallbackPrompt := by
    intro h
    have h' := composeAdvice_contains _ _ _ (by decide) h
    revert h'
    unfold tierMessage
    split_ifs <;> decide
  refine ⟨composeAdvice_ne_empty _ _, ?_, hfb, ?_⟩
  · intro h
    apply hfb
    rw [h]
    exact List.infix_refl _
  · by_cases h0 : s.crewCapacity = 0
    · rw [if_pos h0]
      have ht : tierMessage s.crewCapacity = placePrompt := by simp [tierMessage, h0]
      rw [ht] at hend
      refine ⟨hend, ?_, ?_⟩
      · intro h
        have h' := composeAdvice_contains _ _ _ (by decide) h
        rw [ht] at h'
        exact absurd h' (by decide)
      · intro h
        have h' := composeAdvice_contains _ _ _ (by decide) h
        rw [ht] at h'
        exact absurd h' (by decide)
    · rw [if_neg h0]
      by_cases h6 : 6 ≤ s.crewCapacity
      · rw [if_pos h6]
        have ht : tierMessage s.crewCapacity = maxMessage := by simp [tierMessage, h0, h6]
        rw [ht] at hend
        refine ⟨hend, ?_, ?_⟩
        · intro h
          have h' := composeAdvice_contains _ _ _ (by decide) h
          rw [ht] at h'
          exact absurd h' (by decide)
        · intro h
          have h' := composeAdvice_contains _ _ _ (by decide) h
          rw [ht] at h'
          exact absurd h' (by decide)
      · rw [if_neg h6]
        have ht : tierMessage s.crewCapacity = addMorePrompt := by simp [tierMessage, h0, h6]
        rw [ht] at hend
        refine ⟨hend, ?_, ?_⟩
        · intro h
          have h' := composeAdvice_contains _ _ _ (by decide) h
          rw [ht] at h'
          exact absurd h' (by decide)
        · intro h
          have h' := composeAdvice_contains _ _ _ (by decide) h
          rw [ht] at h'
          exact absurd h' (by decide)

theorem warningLines_composeAdvice (modules : List Module) (c : Nat) :
    warningLines (composeAdvice modules c) hygieneWarning =
      (validOfType modules .HYGIENE).countP fun h =>
        nearAny h 100 (validOfType modules .KITCHEN) := by
  obtain ⟨a, b, hd, ha⟩ := composeAdvice_data modules c
  have htier : '\n' ∉ (tierMessage c).data := by
    unfold tierMessage
    split_ifs <;> decide
  have hnot : (decide ((tierMessage c).data ++ ['\n'] = hygieneWarning.data)) = false := by
    unfold tierMessage
    split_ifs <;> decide
  unfold warningLines
  rw [hd, splitLines_repeatText hygieneWarning hygieneWarning.data.dropLast (by decide)
      (by decide), splitLines_repeatText sleepWarning sleepWarning.data.dropLast (by decide)
      (by decide), splitLines_of_no_newline _ htier, List.countP_append, List.countP_append,
    List.countP_replicate, List.countP_replicate, List.countP_cons, List.countP_nil]
  have h1 : (decide (hygieneWarning.data.dropLast ++ ['\n'] = hygieneWarning.data)) = true := by
    decide
  have h2 : (decide (sleepWarning.data.dropLast ++ ['\n'] = hygieneWarning.data)) = false := by
    decide
  simp only [h1, h2, hnot, if_true, if_false, Bool.false_eq_true, Nat.add_zero]
  exact ha

theorem countP_validOfType (modules : List Module) (key other : ModuleKey) (limit : Double) :
    ((validOfType modules key).countP fun h => nearAny h limit (validOfType modules other)) =
      modules.countP fun h =>
        (!h.isPalette && decide (h.moduleType = key) && isModulePlacementValid modules h) &&
          modules.any fun k =>
            (!k.isPalette && decide (k.moduleType = other) && isModulePlacementValid modules k) &&
              Double.lt (distanceBetween h.x h.y k.x k.y) limit := by
  unfold validOfType nearAny
  rw [List.countP_filter]
  apply List.countP_congr
  intro h _
  rw [List.any_filter, Bool.and_comm]

theorem warningLines_updateAdvice (s : Scene) :
    warningLines (updateAdvice s).adviceText hygieneWarning =
      s.modules.countP fun h =>
        (!h.isPalette && decide (h.moduleType = .HYGIENE) &&
            isModulePlacementValid s.modules h) &&
          s.modules.any fun k =>
            (!k.isPalette && decide (k.moduleType = .KITCHEN) &&
                isModulePlacementValid s.modules k) &&
              Double.lt (distanceBetween h.x h.y k.x k.y) 100 := by
  rw [updateAdvice_adviceText, warningLines_composeAdvice, countP_validOfType]

/-- C6, counterexample: the placed modules are a hygiene module at the position written
(484.8, 203.3) and a kitchen at (512.8, 107.3), both valid.  Their Euclidean centre distance is
below 100, so the claim counts one warning line; the computed distance is exactly 100 and the
advice has no warning line. -/
theorem C6_euclidean_counterexample :
    isModulePlacementValid (paletteModules ++ [offGridHygiene, offGridKitchen]) offGridHygiene
        = true ∧
      isModulePlacementValid (paletteModules ++ [offGridHygiene, offGridKitchen]) offGridKitchen
        = true ∧
      Real.sqrt (((offGridHygiene.x.toRat : ℝ) - (offGridKitchen.x.toRat : ℝ)) ^ 2 +
          ((offGridHygiene.y.toRat : ℝ) - (offGridKitchen.y.toRat : ℝ)) ^ 2) < 100 ∧
      distanceBetween offGridHygiene.x offGridHygiene.y offGridKitchen.x offGridKitchen.y = 100 ∧
      warningLines
        (updateAdvice (updateScore
          (sceneOf (paletteModules ++ [offGridHygiene, offGridKitchen]) 0))).adviceText
        hygieneWarning = 0 := by
  refine ⟨by decide, by decide, ?_, by decide, ?_⟩
  · have h1 : offGridHygiene.x = Double.finite 8528691794332877 (-44) := by decide
    have h2 : offGridHygiene.y = Double.finite 3576491422829773 (-44) := by decide
    have h3 : offGridKitchen.x = Double.finite 2255318250894131 (-42) := by decide
    have h4 : offGridKitchen.y = Double.finite 7550566250263347 (-46) := by decide
    rw [h1, h2, h3, h4]
    simp only [Double.toRat]
    rw [Real.sqrt_lt' (by norm_num)]
    push_cast
    norm_num
  · rw [warningLines_updateAdvice]
    simp only [updateScore, sceneOf]
    decide

/-- C6, amended: the number of hygiene warning lines in the advice is the number of valid placed
HYGIENE modules that have some valid placed KITCHEN module at a centre distance, as
`Phaser.Math.Distance.Between` returns it, below 100: one line per such hygiene module however
many kitchens are near, none for palette entries or invalid modules.  A HYGIENE at (400, 300)
with a KITCHEN at (450, 300) as the only placed modules gives exactly one warning line. -/
theorem C6_hygiene_warning_count :
    (∀ s : Scene,
      warningLines (updateAdvice s).adviceText hygieneWarning =
        s.modules.countP fun h =>
          (!h.isPalette && decide (h.moduleType = .HYGIENE) &&
              isModulePlacementValid s.modules h) &&
            s.modules.any fun k =>
              (!k.isPalette && decide (k.moduleType = .KITCHEN) &&
                  isModulePlacementValid s.modules k) &&
                Double.lt (distanceBetween h.x h.y k.x k.y) 100) ∧
      distanceBetween 400 300 450 300 = 50 ∧
      ∀ c : Nat,
        warningLines
          (updateAdvice (sceneOf
            (paletteModules ++ [placedModule 6 .HYGIENE 400 300, placedModule 7 .KITCHEN 450 300])
            c)).adviceText hygieneWarning = 1 := by
  refine ⟨warningLines_updateAdvice, by decide, ?_⟩
  intro c
  rw [warningLines_updateAdvice]
  simp only [sceneOf]
  decide

/-! ## Pointer-up -/

theorem updateAdvice_updateScore (t : Scene) :
    updateAdvice (updateScore t) =
      { t with
        crewCapacity := crewSum t.modules
        scoreText := scoreLine (crewSum t.modules) (validPlaced t.modules).length
        adviceText := composeAdvice t.modules (crewSum t.modules) } := by
  have h := scoreLoop_validPlaced t.modules
  simp only [updateAdvice, updateScore, h, composeAdvice_ne_empty, if_false, crewSum]

theorem updateScore_scoreText (t : Scene) :
    (updateScore t).scoreText = scoreLine (crewSum t.modules) (validPlaced t.modules).length := by
  simp only [updateScore, scoreLoop_validPlaced, crewSum]

theorem onPointerUp_eq (s : Scene) (d : Nat) (hd : s.draggedModule = some (.module d)) :
    onPointerUp s =
      updateAdvice (updateScore { s with
        modules := updateObject s.modules d fun o => { o with isDragging := false }
        draggedModule := none }) := by
  simp only [onPointerUp, hd]

/-- C7: when a module is being dragged, pointer-up clears the isDragging flag of that module,
sets draggedModule to null, and leaves a score and an advice equal to those `updateScore` and
`updateAdvice` compute over the current module list from any previous crew capacity; the
advice closes with the tier message of the crew capacity just computed, so with a capacity of 6
or more it contains the maximum-reached message and not the add-more prompt. -/
theorem C7_pointer_up_recomputes (s : Scene) (d : Nat) (hd : s.draggedModule = some (.module d)) :
    (onPointerUp s).draggedModule = none ∧
      (onPointerUp s).modules =
        updateObject s.modules d (fun o => { o with isDragging := false }) ∧
      (∀ m ∈ (onPointerUp s).modules, m.id = d → m.isDragging = false) ∧
      (onPointerUp s).crewCapacity = crewSum (onPointerUp s).modules ∧
      (∀ c : Nat,
        (onPointerUp s).scoreText =
            (updateScore (sceneOf (onPointerUp s).modules c)).scoreText ∧
          (onPointerUp s).adviceText =
            (updateAdvice (updateScore (sceneOf (onPointerUp s).modules c))).adviceText) ∧
      endsWithText (onPointerUp s).adviceText (tierMessage (crewSum (onPointerUp s).modules)) ∧
      (6 ≤ crewSum (onPointerUp s).modules →
        containsText (onPointerUp s).adviceText maxMessage ∧
          ¬ containsText (onPointerUp s).adviceText addMorePrompt) := by
  rw [onPointerUp_eq s d hd, updateAdvice_updateScore]
  simp only
  refine ⟨trivial, trivial, ?_, trivial, ?_, composeAdvice_endsWith _ _, ?_⟩
  · intro m hm hid
    unfold updateObject at hm
    rw [List.mem_map] at hm
    obtain ⟨o, _, ho⟩ := hm
    by_cases hod : o.id = d
    · rw [if_pos hod] at ho
      rw [← ho]
    · rw [if_neg hod] at ho
      rw [ho] at hod
      exact absurd hid hod
  · intro c
    rw [updateAdvice_updateScore, updateScore_scoreText]
    simp only [sceneOf, and_self]
  · intro h6
    have ht : tierMessage (crewSum (updateObject s.modules d fun o =>
        { o with isDragging := false })) = maxMessage := by
      unfold tierMessage
      rw [if_neg (by omega), if_pos h6]
    constructor
    · have := composeAdvice_endsWith (updateObject s.modules d fun o =>
        { o with isDragging := false }) (crewSum (updateObject s.modules d fun o =>
        { o with isDragging := false }))
      rw [ht] at this
      exact List.IsSuffix.isInfix this
    · intro hc
      have h' := composeAdvice_contains _ _ _ (by decide) hc
      rw [ht] at h'
      exact absurd h' (by decide)

/-- C7 at the capacity scenario: six placed modules whose crew support sums to 6 lie in valid,
non-overlapping places, the last one is being dragged, and score and advice are stale.  Pointer-up
clears its flag, ends the drag, gives crew capacity 6 and an advice with the maximum-reached
message and without the add-more prompt. -/
theorem C7_pointer_up_recomputes_witness :
    releaseScene.draggedModule = some (.module 11) ∧
      (releaseScene.modules.filter fun m => m.isDragging).map Module.id = [11] ∧
      releaseScene.crewCapacity = 0 ∧
      (onPointerUp releaseScene).draggedModule = none ∧
      (∀ m ∈ (onPointerUp releaseScene).modules, m.id = 11 → m.isDragging = false) ∧
      (onPointerUp releaseScene).crewCapacity = 6 ∧
      (validPlaced (onPointerUp releaseScene).modules).length = 6 ∧
      containsText (onPointerUp releaseScene).adviceText maxMessage ∧
      ¬ containsText (onPointerUp releaseScene).adviceText addMorePrompt := by
  have h := C7_pointer_up_recomputes releaseScene 11 (by decide)
  have hsum : crewSum (onPointerUp releaseScene).modules = 6 := by
    rw [h.2.1]
    decide
  have hlen : (validPlaced (onPointerUp releaseScene).modules).length = 6 := by
    rw [h.2.1]
    decide
  refine ⟨by decide, by decide, by decide, h.1, h.2.2.1, ?_, hlen, ?_⟩
  · rw [h.2.2.2.1, hsum]
  · exact h.2.2.2.2.2.2 (by rw [hsum])

/-! ## Reachable scenes: the hit array is all that is ever dragged -/

theorem updateAdvice_modules (t : Scene) :
    (updateAdvice t).modules = t.modules ∧ (updateAdvice t).draggedModule = t.draggedModule :=
  ⟨rfl, rfl⟩

theorem updateScore_modules (t : Scene) :
    (updateScore t).modules = t.modules ∧ (updateScore t).draggedModule = t.draggedModule :=
  ⟨rfl, rfl⟩

theorem create_arrayInv : ArrayInv create := by
  refine ⟨rfl, ?_⟩
  intro d hd
  have hnone : create.draggedModule = none := rfl
  rw [hnone] at hd
  exact absurd hd (by simp)

theorem step_pointerdown (s : Scene) (x y : Double) (under : List Nat) :
    step s (.pointerdown x y under) =
      { s with
        draggedModule :=
          some (.array { objects := under, x := none, y := none, isDragging := true }) } :=
  rfl

theorem step_pointermove_array (s : Scene) (x y : Double) (a : HitArray)
    (hd : s.draggedModule = some (.array a)) :
    step s (.pointermove x y) =
      if a.isDragging = true then
        { s with draggedModule := some (.array { a with x := some x, y := some y }) }
      else s := by
  simp only [step, handle, onPointerMove, hd]
  by_cases ha : a.isDragging = true
  · simp only [ha, if_true, updateModuleValidityOfArray, isModulePlacementValidOfArray]
  · simp only [ha, if_false, Bool.false_eq_true]

theorem step_pointermove_none (s : Scene) (x y : Double) (hd : s.draggedModule = none) :
    step s (.pointermove x y) = s := by
  simp only [step, handle, onPointerMove, hd]

theorem step_pointerup_array (s : Scene) (x y : Double) (a : HitArray)
    (hd : s.draggedModule = some (.array a)) :
    step s (.pointerup x y) = updateAdvice (updateScore { s with draggedModule := none }) := by
  simp only [step, handle, onPointerUp, hd]

theorem step_pointerup_none (s : Scene) (x y : Double) (hd : s.draggedModule = none) :
    step s (.pointerup x y) = s := by
  simp only [step, handle, onPointerUp, hd]

theorem arrayInv_step {s : Scene} (h : ArrayInv s) (e : PointerEvent) : ArrayInv (step s e) := by
  cases e with
  | pointerdown x y under =>
    rw [step_pointerdown]
    refine ⟨h.1, ?_⟩
    intro d hd
    exact ⟨_, (Option.some.inj hd).symm⟩
  | pointermove x y =>
    cases hdm : s.draggedModule with
    | none =>
      rw [step_pointermove_none s x y hdm]
      exact h
    | some d =>
      obtain ⟨a, rfl⟩ := h.2 d hdm
      rw [step_pointermove_array s x y a hdm]
      by_cases ha : a.isDragging = true
      · rw [if_pos ha]
        refine ⟨h.1, ?_⟩
        intro d hd
        exact ⟨_, (Option.some.inj hd).symm⟩
      · rw [if_neg ha]
        exact h
  | pointerup x y =>
    cases hdm : s.draggedModule with
    | none =>
      rw [step_pointerup_none s x y hdm]
      exact h
    | some d =>
      obtain ⟨a, rfl⟩ := h.2 d hdm
      rw [step_pointerup_array s x y a hdm]
      refine ⟨?_, ?_⟩
      · rw [(updateAdvice_modules _).1, (updateScore_modules _).1]
        exact h.1
      · intro d hd
        rw [(updateAdvice_modules _).2, (updateScore_modules _).2] at hd
        exact absurd hd (by simp)

theorem arrayInv_run {s : Scene} (h : ArrayInv s) (events : List PointerEvent) :
    ArrayInv (run s events) := by
  induction events generalizing s with
  | nil => exact h
  | cons e rest ih => exact ih (arrayInv_step h e)

theorem run_modules (events : List PointerEvent) : (run create events).modules = paletteModules :=
  (arrayInv_run create_arrayInv events).1

theorem paletteModules_not_dragging : ∀ m ∈ paletteModules, m.isDragging = false := by
  decide

/-- With a module object dragged (a scene the event dispatch does not reach), a pointer-move
refreshes the outline of that module only: the second sleep pod moves onto the first and turns
red, the first keeps its green outline although its placement is no longer valid. -/
theorem outline_stale_when_module_dragged :
    ∃ t, onPointerMove overlapScene 420 300 = .ok t ∧
      (t.modules.drop 6).map
          (fun m => (m.id, m.strokeColor, isModulePlacementValid t.modules m)) =
        [(6, 0x00ff00, false), (7, 0xff0000, false)] := by
  refine ⟨_, rfl, ?_⟩
  decide

/-! ## Claims on reachable scenes -/

/-- C8: in every scene reached from the initial one by pointer events, every placed (non-palette)
module has the green outline when its placement is valid and the red outline when it is not.  The
list of such a scene is the six palette templates and nothing else, so no placed module is in
it. -/
theorem C8_outline_follows_validity (events : List PointerEvent) :
    (run create events).modules = paletteModules ∧
      (∀ m ∈ (run create events).modules, m.isPalette = true) ∧
      ∀ m ∈ (run create events).modules, m.isPalette = false →
        (isModulePlacementValid (run create events).modules m = true →
            m.strokeColor = 0x00ff00) ∧
          (isModulePlacementValid (run create events).modules m = false →
            m.strokeColor = 0xff0000) := by
  have hall : ∀ m ∈ (run create events).modules, m.isPalette = true := by
    rw [run_modules]
    exact paletteModules_isPalette
  refine ⟨run_modules events, hall, ?_⟩
  intro m hm hp
  rw [hall m hm] at hp
  exact absurd hp (by decide)

/-- C9 on the code: a pointer-down on a palette template appends nothing.  The hit test hands
`onPointerDown` an array; the array itself becomes `draggedModule`, the list keeps its six
entries, after every sequence of events, and the next pointer-move throws.  The branch that
creates a module is taken only for a hit that is the template object itself, and then appends
one module. -/
theorem C9_pointer_down_appends_nothing :
    (∀ events : List PointerEvent, (run create events).modules = paletteModules) ∧
      (step create (.pointerdown 650 50 [0])).modules.length = 6 ∧
      (step create (.pointerdown 650 50 [0])).draggedModule =
        some (.array { objects := [0], x := none, y := none, isDragging := true }) ∧
      handle (step create (.pointerdown 650 50 [0])) (.pointermove 400 300) =
        .error
          { message := sizeOfUndefined
            scene := { create with
              draggedModule := some (.array
                { objects := [0]
                  x := some 400
                  y := some 300
                  isDragging := true }) } } ∧
      ((onPointerDown create 650 50 (.module 0)).modules.drop 6).map Module.stamp =
        [(6, .SLEEP_POD, MODULE_TYPES .SLEEP_POD, false)] := by
  exact ⟨run_modules, by decide, by decide, rfl, by decide⟩

/-- C10: in every scene reached from the initial one by pointer events, in any order, a module
has isDragging set only if it is the current draggedModule; at most one module is flagged and
none when draggedModule is null.  No module of the list is ever flagged: the flag is set on
the hit array. -/
theorem C10_flag_only_on_dragged (events : List PointerEvent) :
    (∀ m ∈ (run create events).modules, m.isDragging = false) ∧
      (∀ m ∈ (run create events).modules, m.isDragging = true →
        (run create events).draggedModule = some (.module m.id)) ∧
      (run create events).modules.countP (fun m => m.isDragging) ≤ 1 ∧
      ((run create events).draggedModule = none →
        (run create events).modules.countP (fun m => m.isDragging) = 0) := by
  have hall : ∀ m ∈ (run create events).modules, m.isDragging = false := by
    rw [run_modules]
    exact paletteModules_not_dragging
  have hcount : (run create events).modules.countP (fun m => m.isDragging) = 0 := by
    rw [List.countP_eq_zero]
    intro m hm
    rw [hall m hm]
    decide
  refine ⟨hall, ?_, ?_, fun _ => hcount⟩
  · intro m hm hflag
    rw [hall m hm] at hflag
    exact absurd hflag (by decide)
  · rw [hcount]
    exact Nat.zero_le 1

end Habitat
